import Mathlib

/-!
# skyscraper: the fetch classifier and the worker pool

A shallow embedding of `scraper.go`.

* Go strings are Lean `String`s; `strings.HasPrefix` compares the leading
  characters.
* A value of a Go interface type that may be `nil` is an `Option`.
* `s.client.Get` is a function from the requested URL to what the call
  returned: either an error (no usable response) or a response.
* A response body is the bytes the server delivers followed by either a clean
  end of stream or a read error; a read error comes either from the `Read`
  call that returns the last bytes or from the call after it.
* Goroutines are threads of a transition system whose events are the
  communication steps of the source (`select`, channel send and receive,
  `close`, `wg.Done`, `wg.Wait`).
-/

namespace Skyscraper

/-! ## Constants and errors -/

/-- Size cap for a response body: `maxSize = 1 << 22 // 4mb`. -/
def maxSize : Nat := 1 <<< 22

/-- The constant `http.StatusBadRequest`. -/
def StatusBadRequest : Int := 400

/-- Error values that reach `Response.Err`: a value made by `errors.New`, a
`StatusError{Code, Err}` struct, or an error produced outside this package
(by `net/http` or by reading the body). -/
inductive Error where
  | errorsNew (text : String)
  | StatusError (Code : Int) (Err : Error)
  | foreign (text : String)
  deriving DecidableEq

/-- The package variable
`ErrNoSuccessfulResponse = errors.New("Received non successful response")`. -/
def ErrNoSuccessfulResponse : Error :=
  Error.errorsNew "Received non successful response"

/-! ## The transport -/

/-- A read error that ends a body before `io.EOF`. A reader may report it from
the `Read` call that returns the last bytes (`withData = true`) or only from
the next call, which returns no bytes (`withData = false`). -/
structure ReadFailure where
  err : String
  withData : Bool
  deriving DecidableEq

/-- The body of an HTTP response (`resp.Body`): reading it yields `data` and
then ends with `io.EOF` (`failure = none`) or with a read error. -/
structure ReadCloser where
  data : List UInt8
  failure : Option ReadFailure
  deriving DecidableEq

/-- The fields of `*http.Response` that `process` uses. -/
structure HttpResponse where
  StatusCode : Int
  Body : ReadCloser
  deriving DecidableEq

/-- What `s.client.Get(url)` returned: `failure err` when `err != nil`
(the response is then not looked at), `response resp` when `err == nil`. -/
inductive GetResult where
  | failure (err : String)
  | response (resp : HttpResponse)
  deriving DecidableEq

/-- The reader `io.LimitReader(r, n)`. `LimitedReader.Read` answers `io.EOF`
without calling `r` once `n` bytes were returned (`l.N <= 0`), and before that
hands on whatever `r.Read` returns, bytes and error alike. So the end of `r` is
seen when `r` has fewer than `n` bytes, and a read error of `r` is also seen
when `r` has exactly `n` bytes (`n > 0`) and reports the error from the call
that returns the last of them; in every other case the limited reader yields
the first `n` bytes and then `io.EOF`. -/
def LimitReader (r : ReadCloser) (n : Nat) : ReadCloser :=
  if r.data.length < n then r
  else
    match r.failure with
    | some f =>
      if f.withData && r.data.length == n && n != 0 then r
      else { data := r.data.take n, failure := none }
    | none => { data := r.data.take n, failure := none }

/-- The call `ioutil.ReadAll(r)`: the bytes read until the stream ended, and
the error that ended it when that was not `io.EOF`. -/
def ReadAll (r : ReadCloser) : List UInt8 × Option Error :=
  (r.data, r.failure.map (fun f => Error.foreign f.err))

/-! ## The fetch classifier -/

/-- The struct `Response`. `Body` is `nil` or `bytes.NewReader(body)`, `Err`
is `nil` or an error value. -/
structure Response where
  Domain : String
  Body : Option (List UInt8)
  Err : Option Error
  StatusCode : Int
  deriving DecidableEq

/-- The function `strings.HasPrefix(s, lead)`. -/
def HasPrefix (s lead : String) : Bool :=
  lead.toList.isPrefixOf s.toList

/-- The observable effects of one call of `process`: the URL handed to
`s.client.Get` and the response the deferred function sends on `s.Out`. -/
structure Fetch where
  url : String
  out : Response
  deriving DecidableEq

/-- The method `Scraper.process`, with `Get` standing for `s.client.Get`. -/
def process (Get : String → GetResult) (domain : String) : Fetch :=
  let response : Response :=
    { Domain := domain, Body := none, Err := none, StatusCode := 0 }
  let domain :=
    if !HasPrefix domain "http://" && !HasPrefix domain "https://"
        && !HasPrefix domain "//" then
      "http://" ++ domain
    else domain
  match Get domain with
  | GetResult.failure err =>
    { url := domain, out := { response with Err := some (Error.foreign err) } }
  | GetResult.response resp =>
    if resp.StatusCode ≥ StatusBadRequest then
      { url := domain
        out := { response with
          Err := some (Error.StatusError resp.StatusCode ErrNoSuccessfulResponse) } }
    else
      let response := { response with StatusCode := resp.StatusCode }
      match ReadAll (LimitReader resp.Body maxSize) with
      | (_, some err) => { url := domain, out := { response with Err := some err } }
      | (body, none) => { url := domain, out := { response with Body := some body } }

/-! ## The pool: `New`, `Add`, `Process`, `Close` as goroutines -/

/-- The shared part of the struct `Scraper`: whether `s.stop` and `s.domains`
have been closed, the counter of `s.wg`, and the responses a reader has taken
from `s.Out` so far. Both channels are unbuffered. -/
structure Scraper where
  stopClosed : Bool
  domainsClosed : Bool
  wg : Nat
  Out : List Response
  deriving DecidableEq

/-- The function `New(workers)`: open channels and `wg.Add(workers)`. -/
def New (workers : Nat) : Scraper :=
  { stopClosed := false, domainsClosed := false, wg := workers, Out := [] }

/-- A goroutine inside `Add(domains...)`: at the head of the `range` loop with
the domains still to go, inside `default:` at the send `s.domains <- domain`,
returned, or stopped by the panic of a send on a closed channel. -/
inductive AddState where
  | loop (domains : List String)
  | send (domain : String) (rest : List String)
  | returned
  | panicked
  deriving DecidableEq

/-- A goroutine inside `Process()`: at the `select`, inside `process` at the
deferred send `s.Out <- response`, in `time.Sleep(s.delay)`, returned, or
stopped by the panic of `wg.Done` on a zero counter. -/
inductive ProcessState where
  | select
  | publish (response : Response)
  | sleep
  | returned
  | panicked
  deriving DecidableEq

/-- The goroutine that calls `Close()` once: not yet called, past
`close(s.stop)` and in `s.wg.Wait()`, at the deferred `close(s.domains)`,
returned. -/
inductive CloseState where
  | idle
  | wait
  | deferred
  | returned
  deriving DecidableEq

/-- A scraper together with the goroutines that use it. -/
structure Pool where
  s : Scraper
  adds : List AddState
  procs : List ProcessState
  closer : CloseState
  deriving DecidableEq

/-- The communication steps of the source. `procRecv w i o` is the rendezvous
on `s.domains` between the `select` of `Process` goroutine `w` and the send of
`Add` goroutine `i`, followed by the call of `process` whose transport call
returns `o`. -/
inductive Event where
  | addSelect (i : Nat)
  | addPanic (i : Nat)
  | procStop (w : Nat)
  | procRecv (w i : Nat) (o : GetResult)
  | procRecvClosed (w : Nat) (o : GetResult)
  | outRecv (w : Nat)
  | wake (w : Nat)
  | closeStop
  | closeWait
  | closeDomains
  deriving DecidableEq

/-- One step of the pool; `none` when the event cannot happen in this state.

* `addSelect`: the `select` of `Add`. With no domain left the loop ends. The
  case `<-s.stop` is ready exactly when `s.stop` is closed and is then taken;
  otherwise `default` runs and the goroutine arrives at the send.
* `addPanic`: a send on the closed `s.domains` panics.
* `procStop`: the `select` of `Process` may take `case <-s.stop` when `s.stop`
  is closed: `wg.Done()` and return.
* `procRecv`, `procRecvClosed`: the same `select` may take
  `case domain := <-s.domains` when a sender is waiting on the open channel, or
  when the channel is closed (the zero value `""` is received). Go chooses
  among the ready cases of a `select` at random, so neither case excludes the
  other.
* `outRecv`: a reader takes the response from `s.Out`; `wake`: the sleep ends.
* `closeStop`, `closeWait`, `closeDomains`: the three steps of `Close`. -/
def step (p : Pool) : Event → Option Pool
  | Event.addSelect i =>
    match p.adds[i]? with
    | some (AddState.loop []) => some { p with adds := p.adds.set i AddState.returned }
    | some (AddState.loop (domain :: rest)) =>
      if p.s.stopClosed then some { p with adds := p.adds.set i AddState.returned }
      else some { p with adds := p.adds.set i (AddState.send domain rest) }
    | _ => none
  | Event.addPanic i =>
    match p.adds[i]? with
    | some (AddState.send _ _) =>
      if p.s.domainsClosed then some { p with adds := p.adds.set i AddState.panicked }
      else none
    | _ => none
  | Event.procStop w =>
    match p.procs[w]? with
    | some ProcessState.select =>
      if p.s.stopClosed then
        if p.s.wg = 0 then some { p with procs := p.procs.set w ProcessState.panicked }
        else some { p with
          s := { p.s with wg := p.s.wg - 1 }
          procs := p.procs.set w ProcessState.returned }
      else none
    | _ => none
  | Event.procRecv w i o =>
    match p.procs[w]?, p.adds[i]? with
    | some ProcessState.select, some (AddState.send domain rest) =>
      if p.s.domainsClosed then none
      else some { p with
        adds := p.adds.set i (AddState.loop rest)
        procs := p.procs.set w (ProcessState.publish (process (fun _ => o) domain).out) }
    | _, _ => none
  | Event.procRecvClosed w o =>
    match p.procs[w]? with
    | some ProcessState.select =>
      if p.s.domainsClosed then
        some { p with
          procs := p.procs.set w (ProcessState.publish (process (fun _ => o) "").out) }
      else none
    | _ => none
  | Event.outRecv w =>
    match p.procs[w]? with
    | some (ProcessState.publish response) =>
      some { p with
        s := { p.s with Out := p.s.Out ++ [response] }
        procs := p.procs.set w ProcessState.sleep }
    | _ => none
  | Event.wake w =>
    match p.procs[w]? with
    | some ProcessState.sleep => some { p with procs := p.procs.set w ProcessState.select }
    | _ => none
  | Event.closeStop =>
    match p.closer with
    | CloseState.idle =>
      if p.s.stopClosed then none
      else some { p with s := { p.s with stopClosed := true }, closer := CloseState.wait }
    | _ => none
  | Event.closeWait =>
    match p.closer with
    | CloseState.wait =>
      if p.s.wg = 0 then some { p with closer := CloseState.deferred } else none
    | _ => none
  | Event.closeDomains =>
    match p.closer with
    | CloseState.deferred =>
      if p.s.domainsClosed then none
      else some { p with s := { p.s with domainsClosed := true }, closer := CloseState.returned }
    | _ => none

/-- The pool after a sequence of events, `none` when one of them cannot
happen. -/
def run (p : Pool) : List Event → Option Pool
  | [] => some p
  | e :: es => (step p e).bind (fun q => run q es)

/-- A fresh scraper `New(workers)` with one `Add` call per list of `calls`,
`procs` goroutines running `Process`, and `Close` not yet called. -/
def boot (workers : Nat) (calls : List (List String)) (procs : Nat) : Pool :=
  { s := New workers
    adds := calls.map AddState.loop
    procs := List.replicate procs ProcessState.select
    closer := CloseState.idle }

/-! ## Facts about the helpers -/

theorem maxSize_eq : maxSize = 4194304 := by decide

theorem HasPrefix_append (lead d : String) : HasPrefix (lead ++ d) lead = true := by
  simp [HasPrefix, String.toList]

/-- The URL that `process` requests, written out. -/
theorem process_url (Get : String → GetResult) (domain : String) :
    (process Get domain).url =
      (if HasPrefix domain "http://" || HasPrefix domain "https://"
          || HasPrefix domain "//" then domain else "http://" ++ domain) := by
  unfold process
  by_cases h1 : HasPrefix domain "http://" <;> by_cases h2 : HasPrefix domain "https://"
    <;> by_cases h3 : HasPrefix domain "//" <;> simp only [h1, h2, h3]
    <;> (split <;> [simp; (split <;> [simp; (split <;> simp)])])

/-- The response `process` sends, by cases on what the transport returned for
the requested URL. -/
theorem process_out (Get : String → GetResult) (domain : String) :
    (process Get domain).out =
      (match Get (process Get domain).url with
        | GetResult.failure err => ⟨domain, none, some (Error.foreign err), 0⟩
        | GetResult.response resp =>
          if 400 ≤ resp.StatusCode then
            ⟨domain, none,
              some (Error.StatusError resp.StatusCode ErrNoSuccessfulResponse), 0⟩
          else
            match (ReadAll (LimitReader resp.Body maxSize)).2 with
            | some err => ⟨domain, none, some err, resp.StatusCode⟩
            | none =>
              ⟨domain, some (ReadAll (LimitReader resp.Body maxSize)).1, none,
                resp.StatusCode⟩) := by
  unfold process
  simp only []
  generalize (if (!HasPrefix domain "http://" && !HasPrefix domain "https://"
      && !HasPrefix domain "//") = true then "http://" ++ domain else domain) = u
  cases hG : Get u with
  | failure err => simp [hG]
  | response resp =>
    by_cases hc : resp.StatusCode ≥ StatusBadRequest
    · have hc2 : 400 ≤ resp.StatusCode := hc
      simp [hG, hc, hc2]
    · have hc2 : ¬ 400 ≤ resp.StatusCode := hc
      simp only [hG, hc, hc2, if_false]
      rcases hR : ReadAll (LimitReader resp.Body maxSize) with ⟨body, _ | err⟩ <;>
        simp [hG, hc2, hR]

theorem ReadAll_LimitReader_fst (b : ReadCloser) :
    (ReadAll (LimitReader b maxSize)).1 = b.data.take 4194304 := by
  unfold LimitReader ReadAll
  rw [maxSize_eq]
  split
  · next h => simp only []; exact (List.take_of_length_le (by omega)).symm
  · split
    · split
      · next h =>
        simp only [Bool.and_eq_true, beq_iff_eq] at h
        simp only []
        exact (List.take_of_length_le (by omega)).symm
      · rfl
    · rfl

/-- Past the limit the limited reader never calls the body again: it yields the
first `n` bytes and `io.EOF`. -/
theorem LimitReader_of_lt (b : ReadCloser) (n : Nat) (h : n < b.data.length) :
    LimitReader b n = ⟨b.data.take n, none⟩ := by
  unfold LimitReader
  rw [if_neg (by omega)]
  cases b.failure with
  | none => rfl
  | some f =>
    have hne : (b.data.length == n) = false := by
      rw [beq_eq_false_iff_ne]; omega
    simp [hne]

theorem ReadAll_LimitReader_snd_of_lt (b : ReadCloser) (h : maxSize < b.data.length) :
    (ReadAll (LimitReader b maxSize)).2 = none := by
  rw [LimitReader_of_lt b maxSize h]
  rfl

/-- A body that ends with `io.EOF` is read without error, whatever its
length. -/
theorem ReadAll_LimitReader_snd_of_eof (data : List UInt8) :
    (ReadAll (LimitReader ⟨data, none⟩ maxSize)).2 = none := by
  unfold LimitReader
  split <;> rfl

theorem ReadAll_snd_ne_StatusError (r : ReadCloser) (c : Int) (e : Error) :
    (ReadAll r).2 ≠ some (Error.StatusError c e) := by
  unfold ReadAll
  cases r.failure <;> simp

/-! ## The fetch classifier: what `process` publishes -/

/-- C1: the response that `process` publishes has exactly one of `Body` and
`Err` set, for every domain and every transport outcome; a successful fetch
of an empty body has the non-nil empty `Body`. -/
theorem process_body_xor_err (Get : String → GetResult) (domain : String) :
    (((process Get domain).out.Body ≠ none ∧ (process Get domain).out.Err = none) ∨
      ((process Get domain).out.Body = none ∧ (process Get domain).out.Err ≠ none)) ∧
    (process (fun _ => GetResult.response ⟨200, ⟨[], none⟩⟩) domain).out.Body = some [] := by
  constructor
  · rw [process_out]
    cases Get (process Get domain).url with
    | failure err => simp
    | response resp =>
      by_cases hc : 400 ≤ resp.StatusCode
      · simp [hc]
      · cases hR : (ReadAll (LimitReader resp.Body maxSize)).2 <;> simp [hc, hR]
  · rw [process_out]
    simp [ReadAll, LimitReader, maxSize]

/-- C2: when the transport returns a response with status code `c >= 400`,
`process` publishes `Err = StatusError{Code: c, Err: ErrNoSuccessfulResponse}`
and a nil `Body`, whatever the response body is. -/
theorem process_status_error (Get : String → GetResult) (domain : String)
    (resp : HttpResponse) (hGet : Get (process Get domain).url = GetResult.response resp)
    (hc : 400 ≤ resp.StatusCode) :
    (process Get domain).out.Err
        = some (Error.StatusError resp.StatusCode ErrNoSuccessfulResponse) ∧
      (process Get domain).out.Body = none := by
  rw [process_out, hGet]
  simp [hc]

theorem process_status_error_witness :
    (process (fun _ => GetResult.response ⟨418, ⟨[104, 105], none⟩⟩) "127.0.0.1:8080").out.Err
        = some (Error.StatusError 418 ErrNoSuccessfulResponse) ∧
      (process (fun _ => GetResult.response ⟨418, ⟨[104, 105], none⟩⟩)
        "127.0.0.1:8080").out.Body = none :=
  process_status_error (fun _ => GetResult.response ⟨418, ⟨[104, 105], none⟩⟩)
    "127.0.0.1:8080" ⟨418, ⟨[104, 105], none⟩⟩ rfl (by decide)

/-- C3: when the transport call fails before any response is obtained,
`process` publishes the transport's failure as a non-nil `Err`, with
`StatusCode` 0 and a nil `Body`. -/
theorem process_transport_failure (Get : String → GetResult) (domain : String)
    (err : String) (hGet : Get (process Get domain).url = GetResult.failure err) :
    (process Get domain).out.Err = some (Error.foreign err) ∧
      (process Get domain).out.Err ≠ none ∧
      (process Get domain).out.StatusCode = 0 ∧
      (process Get domain).out.Body = none := by
  rw [process_out, hGet]
  simp

theorem process_transport_failure_witness :
    (process (fun _ => GetResult.failure "no such host") "invalid-domain").out.Err
        = some (Error.foreign "no such host") ∧
      (process (fun _ => GetResult.failure "no such host") "invalid-domain").out.Err ≠ none ∧
      (process (fun _ => GetResult.failure "no such host") "invalid-domain").out.StatusCode = 0 ∧
      (process (fun _ => GetResult.failure "no such host") "invalid-domain").out.Body = none :=
  process_transport_failure (fun _ => GetResult.failure "no such host") "invalid-domain"
    "no such host" rfl

/-- C4: for a response with status code below 400 whose body read does not
fail, `process` publishes a nil `Err` and a `Body` holding the first
`min n 4194304` bytes of the `n`-byte response body: the whole body when
`n <= 4194304`, its first 4194304 bytes otherwise. -/
theorem process_success_body (Get : String → GetResult) (domain : String)
    (resp : HttpResponse) (hGet : Get (process Get domain).url = GetResult.response resp)
    (hc : resp.StatusCode < 400)
    (hRead : (ReadAll (LimitReader resp.Body maxSize)).2 = none) :
    (process Get domain).out.Err = none ∧
      (process Get domain).out.Body = some (resp.Body.data.take 4194304) ∧
      (process Get domain).out.Body =
        some (if resp.Body.data.length ≤ 4194304 then resp.Body.data
          else resp.Body.data.take 4194304) ∧
      (resp.Body.data.take 4194304).length = min resp.Body.data.length 4194304 := by
  have hc2 : ¬ 400 ≤ resp.StatusCode := by omega
  rw [process_out, hGet]
  simp only [hc2, if_false, hRead, ReadAll_LimitReader_fst]
  refine ⟨trivial, trivial, ?_, ?_⟩
  · split
    · next h => rw [List.take_of_length_le h]
    · rfl
  · rw [List.length_take, Nat.min_comm]

theorem process_success_body_witness :
    ((process (fun _ => GetResult.response
          ⟨200, ⟨[72, 101, 108, 108, 111, 44, 32, 87, 111, 114, 108, 100], none⟩⟩)
        "http://127.0.0.1:8080").out.Err = none ∧
      (process (fun _ => GetResult.response
          ⟨200, ⟨[72, 101, 108, 108, 111, 44, 32, 87, 111, 114, 108, 100], none⟩⟩)
        "http://127.0.0.1:8080").out.Body
        = some [72, 101, 108, 108, 111, 44, 32, 87, 111, 114, 108, 100]) ∧
    ((process (fun _ => GetResult.response
          ⟨200, ⟨List.replicate 4194305 0, some ⟨"connection reset", true⟩⟩⟩)
        "example.com").out.Err = none ∧
      (process (fun _ => GetResult.response
          ⟨200, ⟨List.replicate 4194305 0, some ⟨"connection reset", true⟩⟩⟩)
        "example.com").out.Body
        = some ((List.replicate 4194305 (0 : UInt8)).take 4194304)) :=
  have h := process_success_body
    (fun _ => GetResult.response
      ⟨200, ⟨[72, 101, 108, 108, 111, 44, 32, 87, 111, 114, 108, 100], none⟩⟩)
    "http://127.0.0.1:8080"
    ⟨200, ⟨[72, 101, 108, 108, 111, 44, 32, 87, 111, 114, 108, 100], none⟩⟩
    rfl (by decide) (by decide)
  have h2 := process_success_body
    (fun _ => GetResult.response
      ⟨200, ⟨List.replicate 4194305 0, some ⟨"connection reset", true⟩⟩⟩)
    "example.com"
    ⟨200, ⟨List.replicate 4194305 0, some ⟨"connection reset", true⟩⟩⟩
    rfl (by decide)
    (ReadAll_LimitReader_snd_of_lt _ (by rw [List.length_replicate, maxSize_eq]; omega))
  ⟨⟨h.1, h.2.2.1⟩, ⟨h2.1, h2.2.1⟩⟩

/-- A body of more than 4194304 bytes is cut to its first 4194304 bytes and
published with a nil `Err`, whatever would have ended the stream later. -/
theorem process_truncates_silently (domain : String) (k : Nat) (x : UInt8)
    (failure : Option ReadFailure) :
    (process (fun _ => GetResult.response ⟨200, ⟨List.replicate (4194305 + k) x, failure⟩⟩)
        domain).out
      = ⟨domain, some (List.replicate 4194304 x), none, 200⟩ := by
  have hlim : LimitReader ⟨List.replicate (4194305 + k) x, failure⟩ maxSize
      = ⟨List.replicate 4194304 x, none⟩ :=
    LimitReader_of_lt _ _ (by rw [List.length_replicate, maxSize_eq]; omega) |>.trans
      (by rw [maxSize_eq, List.take_replicate, Nat.min_eq_left (by omega)])
  rw [process_out]
  simp only [hlim, ReadAll]
  rfl

/-- At a body of exactly 4194304 bytes the outcome depends on how the reader
reports a read error: reported with the last bytes it is published as `Err`,
reported by the next call it is never seen and the body is published. -/
theorem process_at_cap (domain : String) (data : List UInt8) (err : String)
    (hlen : data.length = 4194304) :
    (process (fun _ => GetResult.response ⟨200, ⟨data, some ⟨err, true⟩⟩⟩) domain).out
      = ⟨domain, none, some (Error.foreign err), 200⟩ ∧
    (process (fun _ => GetResult.response ⟨200, ⟨data, some ⟨err, false⟩⟩⟩) domain).out
      = ⟨domain, some data, none, 200⟩ := by
  have h1 : LimitReader ⟨data, some ⟨err, true⟩⟩ maxSize = ⟨data, some ⟨err, true⟩⟩ := by
    unfold LimitReader
    rw [maxSize_eq]
    simp [hlen]
  have h2 : LimitReader ⟨data, some ⟨err, false⟩⟩ maxSize = ⟨data, none⟩ := by
    unfold LimitReader
    rw [maxSize_eq]
    simp only [hlen, Nat.lt_irrefl, if_false, Bool.false_and, Bool.false_eq_true]
    rw [List.take_of_length_le (by omega)]
  constructor
  · rw [process_out]
    simp only [h1, ReadAll]
    rfl
  · rw [process_out]
    simp only [h2, ReadAll]
    rfl

/-- C5: the `Domain` field of the published response is the domain exactly as
submitted, for every transport outcome, also when the URL fetched is the
domain with `http://` put in front. -/
theorem process_domain_echo (Get : String → GetResult) (domain : String) :
    (process Get domain).out.Domain = domain := by
  rw [process_out]
  cases Get (process Get domain).url with
  | failure err => rfl
  | response resp =>
    by_cases hc : 400 ≤ resp.StatusCode
    · simp [hc]
    · cases hR : (ReadAll (LimitReader resp.Body maxSize)).2 <;> simp [hc, hR]

/-- C7: at a response with status 404 the published `StatusCode` is 0, not
404: the status-error branch returns before `response.StatusCode` is
assigned, so the code is only found inside the `StatusError`. -/
theorem process_statusCode_lost_at_404 :
    (process (fun _ => GetResult.response ⟨404, ⟨[], none⟩⟩) "example.com").out.StatusCode = 0 ∧
      (process (fun _ => GetResult.response ⟨404, ⟨[], none⟩⟩) "example.com").out.Err
        = some (Error.StatusError 404 ErrNoSuccessfulResponse) := by
  decide

/-- For every obtained response with status code of 400 or more the published
`StatusCode` is 0; below 400 it is the status of the response, also when the
body read fails. -/
theorem process_statusCode (Get : String → GetResult) (domain : String)
    (resp : HttpResponse) (hGet : Get (process Get domain).url = GetResult.response resp) :
    (process Get domain).out.StatusCode
      = if 400 ≤ resp.StatusCode then 0 else resp.StatusCode := by
  rw [process_out, hGet]
  by_cases hc : 400 ≤ resp.StatusCode
  · simp [hc]
  · cases hR : (ReadAll (LimitReader resp.Body maxSize)).2 <;> simp [hc, hR]

/-- C8, as stated, fails: a response with status 101 is not a 2XX or 3XX
response, and `process` reports no error for it. -/
theorem statusError_iff_not_2xx_3xx_false :
    ¬ (∀ (domain : String) (resp : HttpResponse),
        (∃ c, (process (fun _ => GetResult.response resp) domain).out.Err
            = some (Error.StatusError c ErrNoSuccessfulResponse)) ↔
          ¬ (200 ≤ resp.StatusCode ∧ resp.StatusCode ≤ 399)) := by
  intro h
  obtain ⟨c, hc⟩ := (h "example.com" ⟨101, ⟨[], none⟩⟩).mpr (by decide)
  have hnone : (process (fun _ => GetResult.response ⟨101, ⟨[], none⟩⟩)
      "example.com").out.Err = none := by decide
  rw [hnone] at hc
  cases hc

/-- C8, amended: for every obtained response, `process` reports an `Err` that
is a `StatusError` exactly when the status code is at least 400, and that
error then carries the status code and `ErrNoSuccessfulResponse`. -/
theorem statusError_iff_ge_400 (Get : String → GetResult) (domain : String)
    (resp : HttpResponse) (hGet : Get (process Get domain).url = GetResult.response resp) :
    ((∃ c e, (process Get domain).out.Err = some (Error.StatusError c e)) ↔
        400 ≤ resp.StatusCode) ∧
      ((process Get domain).out.Err
          = some (Error.StatusError resp.StatusCode ErrNoSuccessfulResponse) ↔
        400 ≤ resp.StatusCode) := by
  rw [process_out, hGet]
  by_cases hc : 400 ≤ resp.StatusCode
  · simp [hc]
  · simp only [hc, if_false, iff_false]
    have hne := ReadAll_snd_ne_StatusError (LimitReader resp.Body maxSize)
    cases hR : (ReadAll (LimitReader resp.Body maxSize)).2 with
    | none => simp
    | some err =>
      simp only [Option.some.injEq, not_exists]
      rw [hR] at hne
      exact ⟨fun c e h => hne c e (by rw [h]), fun h => hne _ _ (by rw [h])⟩

theorem statusError_iff_ge_400_witness :
    ((∃ c e, (process (fun _ => GetResult.response ⟨101, ⟨[], none⟩⟩) "example.com").out.Err
        = some (Error.StatusError c e)) ↔ (400 : Int) ≤ 101) ∧
      ((process (fun _ => GetResult.response ⟨101, ⟨[], none⟩⟩) "example.com").out.Err
          = some (Error.StatusError 101 ErrNoSuccessfulResponse) ↔ (400 : Int) ≤ 101) :=
  statusError_iff_ge_400 (fun _ => GetResult.response ⟨101, ⟨[], none⟩⟩) "example.com"
    ⟨101, ⟨[], none⟩⟩ rfl

/-- C9: the URL `process` hands to the transport is the domain itself when it
begins with `http://`, `https://` or `//`, and `http://` followed by the
domain otherwise; it always begins with one of the three, and normalising it
again leaves it unchanged. -/
theorem process_url_normalised (Get Get2 : String → GetResult) (domain : String) :
    (process Get domain).url =
        (if HasPrefix domain "http://" || HasPrefix domain "https://"
            || HasPrefix domain "//" then domain else "http://" ++ domain) ∧
      (HasPrefix (process Get domain).url "http://" = true ∨
        HasPrefix (process Get domain).url "https://" = true ∨
        HasPrefix (process Get domain).url "//" = true) ∧
      (process Get2 (process Get domain).url).url = (process Get domain).url := by
  have hstart : HasPrefix (process Get domain).url "http://" = true ∨
      HasPrefix (process Get domain).url "https://" = true ∨
      HasPrefix (process Get domain).url "//" = true := by
    rw [process_url]
    by_cases h1 : HasPrefix domain "http://" = true
    · simp [h1]
    · by_cases h2 : HasPrefix domain "https://" = true
      · simp [h2]
      · by_cases h3 : HasPrefix domain "//" = true
        · simp [h3]
        · simp [h1, h2, h3, HasPrefix_append]
  refine ⟨process_url Get domain, hstart, ?_⟩
  rw [process_url Get2]
  rcases hstart with h | h | h <;> simp [h]

/-! ## The pool: stop is never lowered, and `Add` checks it first -/

theorem step_stopClosed (p q : Pool) (e : Event) (h : step p e = some q)
    (hs : p.s.stopClosed = true) : q.s.stopClosed = true := by
  cases e <;> simp only [step] at h <;> split at h <;>
    first
    | contradiction
    | (split at h <;>
        first
        | contradiction
        | (cases h; exact hs)
        | (split at h <;> cases h <;> exact hs))
    | (cases h; exact hs)

/-- Once stop is raised, no step brings an `Add` goroutine to its send. -/
theorem step_send_after_stop (p q : Pool) (e : Event) (h : step p e = some q)
    (hs : p.s.stopClosed = true) (i : Nat) (domain : String) (rest : List String)
    (hq : q.adds[i]? = some (AddState.send domain rest)) :
    p.adds[i]? = some (AddState.send domain rest) := by
  cases e with
  | addSelect k =>
    simp only [step] at h
    split at h
    · cases h
      rw [List.getElem?_set] at hq
      split at hq
      · split at hq <;> cases hq
      · exact hq
    · rw [if_pos hs] at h
      cases h
      rw [List.getElem?_set] at hq
      split at hq
      · split at hq <;> cases hq
      · exact hq
    · cases h
  | addPanic k =>
    simp only [step] at h
    split at h
    · split at h
      · cases h
        rw [List.getElem?_set] at hq
        split at hq
        · split at hq <;> cases hq
        · exact hq
      · cases h
    · cases h
  | procRecv w k o =>
    simp only [step] at h
    split at h
    · split at h
      · cases h
      · cases h
        rw [List.getElem?_set] at hq
        split at hq
        · split at hq <;> cases hq
        · exact hq
    · cases h
  | procStop w =>
    simp only [step] at h
    (repeat' split at h) <;> first | (cases h; exact hq) | cases h
  | procRecvClosed w o =>
    simp only [step] at h
    (repeat' split at h) <;> first | (cases h; exact hq) | cases h
  | outRecv w =>
    simp only [step] at h
    (repeat' split at h) <;> first | (cases h; exact hq) | cases h
  | wake w =>
    simp only [step] at h
    (repeat' split at h) <;> first | (cases h; exact hq) | cases h
  | closeStop =>
    simp only [step] at h
    (repeat' split at h) <;> cases h
  | closeWait =>
    simp only [step] at h
    (repeat' split at h) <;> first | (cases h; exact hq) | cases h
  | closeDomains =>
    simp only [step] at h
    (repeat' split at h) <;> first | (cases h; exact hq) | cases h

/-- Once stop is raised, an `Add` goroutine that is at its loop head or has
returned stays so or returns. -/
theorem step_add_after_stop (p q : Pool) (e : Event) (h : step p e = some q)
    (hs : p.s.stopClosed = true) (i : Nat) (domains : List String)
    (ha : p.adds[i]? = some (AddState.loop domains) ∨ p.adds[i]? = some AddState.returned) :
    q.adds[i]? = some (AddState.loop domains) ∨ q.adds[i]? = some AddState.returned := by
  have hlen : i < p.adds.length := by
    rcases ha with ha | ha <;>
      exact (List.getElem?_eq_some_iff.mp ha).1
  cases e with
  | addSelect k =>
    simp only [step] at h
    split at h
    · cases h
      by_cases hk : k = i
      · subst hk; right; simp [hlen]
      · simpa [List.getElem?_set, hk] using ha
    · rw [if_pos hs] at h
      cases h
      by_cases hk : k = i
      · subst hk; right; simp [hlen]
      · simpa [List.getElem?_set, hk] using ha
    · cases h
  | addPanic k =>
    simp only [step] at h
    split at h
    · next d r hk =>
      split at h
      · cases h
        by_cases hki : k = i
        · subst hki; rw [hk] at ha; rcases ha with ha | ha <;> cases ha
        · simpa [List.getElem?_set, hki] using ha
      · cases h
    · cases h
  | procRecv w k o =>
    simp only [step] at h
    split at h
    · next d r hw hk =>
      split at h
      · cases h
      · cases h
        by_cases hki : k = i
        · subst hki; rw [hk] at ha; rcases ha with ha | ha <;> cases ha
        · simpa [List.getElem?_set, hki] using ha
    · cases h
  | procStop w =>
    simp only [step] at h
    (repeat' split at h) <;> first | (cases h; exact ha) | cases h
  | procRecvClosed w o =>
    simp only [step] at h
    (repeat' split at h) <;> first | (cases h; exact ha) | cases h
  | outRecv w =>
    simp only [step] at h
    (repeat' split at h) <;> first | (cases h; exact ha) | cases h
  | wake w =>
    simp only [step] at h
    (repeat' split at h) <;> first | (cases h; exact ha) | cases h
  | closeStop =>
    simp only [step] at h
    (repeat' split at h) <;> cases h
  | closeWait =>
    simp only [step] at h
    (repeat' split at h) <;> first | (cases h; exact ha) | cases h
  | closeDomains =>
    simp only [step] at h
    (repeat' split at h) <;> first | (cases h; exact ha) | cases h

theorem run_add_after_stop (es : List Event) (p q : Pool) (h : run p es = some q)
    (hs : p.s.stopClosed = true) (i : Nat) (domains : List String)
    (ha : p.adds[i]? = some (AddState.loop domains) ∨ p.adds[i]? = some AddState.returned) :
    q.s.stopClosed = true ∧
      (q.adds[i]? = some (AddState.loop domains) ∨ q.adds[i]? = some AddState.returned) := by
  induction es generalizing p with
  | nil =>
    simp only [run, Option.some.injEq] at h
    subst h
    exact ⟨hs, ha⟩
  | cons e es ih =>
    simp only [run] at h
    cases hstep : step p e with
    | none => rw [hstep] at h; cases h
    | some r =>
      rw [hstep] at h
      exact ih r h (step_stopClosed p r e hstep hs)
        (step_add_after_stop p r e hstep hs i domains ha)

/-! ## The pool: `Add` and `Process` once stop is raised -/

/-- C6: an `Add` call made when the stop signal is already raised (whether or
not `Close` has returned and closed the domain queue) returns at its first
`select`: it cannot panic, it is never blocked at a send, and it hands no
domain to a worker, in this state and in every continuation of the
execution. -/
theorem Add_after_stop_returns (p : Pool) (i : Nat) (domains : List String)
    (hs : p.s.stopClosed = true) (ha : p.adds[i]? = some (AddState.loop domains)) :
    step p (Event.addSelect i) = some { p with adds := p.adds.set i AddState.returned } ∧
      step p (Event.addPanic i) = none ∧
      (∀ w o, step p (Event.procRecv w i o) = none) ∧
      (∀ es q, run p es = some q →
        (q.adds[i]? = some (AddState.loop domains) ∧
          step q (Event.addSelect i)
            = some { q with adds := q.adds.set i AddState.returned }) ∨
        q.adds[i]? = some AddState.returned) := by
  have hnow : ∀ r : Pool, r.s.stopClosed = true → r.adds[i]? = some (AddState.loop domains) →
      step r (Event.addSelect i) = some { r with adds := r.adds.set i AddState.returned } := by
    intro r hr har
    simp only [step, har]
    cases domains with
    | nil => rfl
    | cons d rest => simp [hr]
  refine ⟨hnow p hs ha, ?_, ?_, ?_⟩
  · simp only [step, ha]
  · intro w o
    simp only [step, ha]
    split
    · next heq => cases heq
    · rfl
  · intro es q hrun
    obtain ⟨hqs, hq⟩ := run_add_after_stop es p q hrun hs i domains (Or.inl ha)
    rcases hq with hq | hq
    · exact Or.inl ⟨hq, hnow q hqs hq⟩
    · exact Or.inr hq

theorem Add_after_stop_returns_witness :
    step ⟨⟨true, true, 0, []⟩, [AddState.loop ["test"]], [ProcessState.returned],
        CloseState.returned⟩ (Event.addSelect 0)
      = some ⟨⟨true, true, 0, []⟩, [AddState.returned], [ProcessState.returned],
        CloseState.returned⟩ :=
  (Add_after_stop_returns
    ⟨⟨true, true, 0, []⟩, [AddState.loop ["test"]], [ProcessState.returned],
      CloseState.returned⟩ 0 ["test"] rfl rfl).1

/-- An `Add` call that passed its stop check before `Close` began is not
covered by that check: it waits at its send, the worker leaves through the
stop branch, `Close` closes `s.domains`, and the waiting send panics. -/
theorem Add_waiting_at_send_panics_on_Close :
    run (boot 1 [["a.com"]] 1)
        [Event.addSelect 0, Event.closeStop, Event.procStop 0, Event.closeWait,
          Event.closeDomains, Event.addPanic 0]
      = some ⟨⟨true, true, 0, []⟩, [AddState.panicked], [ProcessState.returned],
          CloseState.returned⟩ := by
  decide

/-- C10, as stated, fails: in the execution where an `Add` call passes its
stop check and waits at its send, then `Close` raises the stop signal, the
`select` of the worker has both cases ready and can still dequeue the
domain. -/
theorem stop_branch_not_preferred :
    ¬ (∀ (workers : Nat) (calls : List (List String)) (procs : Nat) (es : List Event)
        (p : Pool), run (boot workers calls procs) es = some p → p.s.stopClosed = true →
        ∀ w i o, step p (Event.procRecv w i o) = none) := by
  intro h
  have h1 := h 1 [["a.com"]] 1 [Event.addSelect 0, Event.closeStop]
    ⟨⟨true, false, 1, []⟩, [AddState.send "a.com" []], [ProcessState.select], CloseState.wait⟩
    (by decide) rfl 0 0 (GetResult.failure "no such host")
  revert h1
  decide

/-- C10, amended: when the stop signal is raised and a worker with a positive
live-worker count is at its `select`, the stop branch can be taken and then
decrements the count and terminates the worker; a domain is dequeued only
from a submitter that is already waiting at its send, so with no submitter
offering on the open queue the worker does not dequeue; and once the stop
signal is raised no step brings a submitter to its send. -/
theorem Process_select_after_stop (p : Pool) (w : Nat)
    (hs : p.s.stopClosed = true) (hw : p.procs[w]? = some ProcessState.select)
    (hwg : 0 < p.s.wg) :
    step p (Event.procStop w)
        = some { p with
            s := { p.s with wg := p.s.wg - 1 }
            procs := p.procs.set w ProcessState.returned } ∧
      (∀ (i : Nat) (o : GetResult) (q : Pool), step p (Event.procRecv w i o) = some q →
        ∃ domain rest, p.adds[i]? = some (AddState.send domain rest)) ∧
      ((∀ (i : Nat) (domain : String) (rest : List String),
          p.adds[i]? ≠ some (AddState.send domain rest)) →
        p.s.domainsClosed = false →
        ∀ i o, step p (Event.procRecv w i o) = none ∧
          step p (Event.procRecvClosed w o) = none) ∧
      (∀ (e : Event) (q : Pool) (i : Nat) (domain : String) (rest : List String),
        step p e = some q → q.adds[i]? = some (AddState.send domain rest) →
        p.adds[i]? = some (AddState.send domain rest)) := by
  have hrecv : ∀ i o q, step p (Event.procRecv w i o) = some q →
      ∃ domain rest, p.adds[i]? = some (AddState.send domain rest) := by
    intro i o q hq
    simp only [step] at hq
    split at hq
    · next d r _ hi => exact ⟨d, r, hi⟩
    · cases hq
  refine ⟨?_, hrecv, ?_, ?_⟩
  · have hne : p.s.wg ≠ 0 := by omega
    simp [step, hw, hs, hne]
  · intro hnone hopen i o
    constructor
    · cases hq : step p (Event.procRecv w i o) with
      | none => rfl
      | some q =>
        obtain ⟨d, r, hi⟩ := hrecv i o q hq
        exact absurd hi (hnone i d r)
    · simp [step, hw, hopen]
  · intro e q i domain rest hstep hq
    exact step_send_after_stop p q e hstep hs i domain rest hq

theorem Process_select_after_stop_witness :
    step ⟨⟨true, false, 1, []⟩, [AddState.returned], [ProcessState.select], CloseState.wait⟩
        (Event.procStop 0)
      = some ⟨⟨true, false, 0, []⟩, [AddState.returned], [ProcessState.returned],
        CloseState.wait⟩ :=
  (Process_select_after_stop
    ⟨⟨true, false, 1, []⟩, [AddState.returned], [ProcessState.select], CloseState.wait⟩ 0
    rfl rfl (by decide)).1

end Skyscraper
